import Mathlib

/-!
A verification development for the click-recording and analytics pipeline of a
URL-shortener service.  The backend (Express + Mongoose) is embedded shallowly:
the Mongoose `Url` and `Click` documents become Lean structures, the MongoDB
collections become lists carried in an explicit `DB` state, each `await`-ed
store operation becomes a pure state transformer, and JavaScript `Date` values
become rationals (milliseconds since the epoch).  External collaborators
(`geoip-lite`, the `validator` library, `Math.random`) are passed in as
function parameters.
-/

namespace UrlShortener

/-- Is `p` a prefix of `s` (on character lists)? -/
def hasPre : List Char → List Char → Bool
  | [], _ => true
  | _ :: _, [] => false
  | a :: ps, b :: ss => a == b && hasPre ps ss

/-- Does `p` occur as a contiguous substring of `s`?  Used to embed the
JavaScript `String.prototype.includes` and the alternation-of-literals
regular expressions of the source. -/
def hasSub (p : List Char) : List Char → Bool
  | [] => hasPre p []
  | b :: ss => hasPre p (b :: ss) || hasSub p ss

/-- JavaScript `s.includes(pat)`. -/
def containsSub (s pat : String) : Bool :=
  hasSub pat.toList s.toList

/-- JavaScript `s.toLowerCase()` (ASCII range, which is all the classifier's
keywords need), written so that it evaluates inside the kernel. -/
def jsToLower (s : String) : String :=
  String.mk (s.toList.map Char.toLower)

/-- JavaScript `x || dflt` for an optional string: `undefined`/`null` and the
empty string are falsy. -/
def jsOrStr (x : Option String) (dflt : String) : String :=
  match x with
  | none => dflt
  | some s => if s == "" then dflt else s

/-- JavaScript truthiness of an optional string value. -/
def jsTruthyStr (x : Option String) : Bool :=
  match x with
  | none => false
  | some s => s != ""

/-- Device classification attached to a click (`UrlService.parseUserAgent`
result shape: `{ type, browser, os, isMobile }`). -/
structure Device where
  type : String
  browser : String
  os : String
  isMobile : Bool
  deriving Repr, DecidableEq

/-- `UrlService.parseUserAgent` (url-shortener-backend, `UrlService`): lower-case
the user-agent string, then ordered substring matches for device type, browser
and operating system. -/
def parseUserAgent (userAgent : String) : Device :=
  let ua := jsToLower userAgent
  let ty :=
    if containsSub ua "mobile" || containsSub ua "android" || containsSub ua "iphone" ||
        containsSub ua "ipod" || containsSub ua "blackberry" || containsSub ua "iemobile" ||
        containsSub ua "opera mini" then "mobile"
    else if containsSub ua "tablet" || containsSub ua "ipad" then "tablet"
    else "desktop"
  let browser :=
    if containsSub ua "chrome" then "Chrome"
    else if containsSub ua "firefox" then "Firefox"
    else if containsSub ua "safari" then "Safari"
    else if containsSub ua "edge" then "Edge"
    else if containsSub ua "opera" then "Opera"
    else "Unknown"
  let os :=
    if containsSub ua "windows" then "Windows"
    else if containsSub ua "mac" then "macOS"
    else if containsSub ua "linux" then "Linux"
    else if containsSub ua "android" then "Android"
    else if containsSub ua "ios" || containsSub ua "iphone" || containsSub ua "ipad" then "iOS"
    else "Unknown"
  { type := ty, browser := browser, os := os, isMobile := ty == "mobile" }

/-- The mobile-device keywords listed by the specification. -/
def mobileKeywords : List String :=
  ["mobile", "android", "iphone", "ipod", "blackberry", "iemobile", "opera mini"]

/-- The tablet keywords listed by the specification. -/
def tabletKeywords : List String := ["tablet", "ipad"]

/-- The browser tokens in the priority order listed by the specification. -/
def browserTokens : List (List String × String) :=
  [(["chrome"], "Chrome"), (["firefox"], "Firefox"), (["safari"], "Safari"),
   (["edge"], "Edge"), (["opera"], "Opera")]

/-- The OS tokens in the priority order listed by the specification
(windows, mac, linux, android, ios-family). -/
def osTokens : List (List String × String) :=
  [(["windows"], "Windows"), (["mac"], "macOS"), (["linux"], "Linux"),
   (["android"], "Android"), (["ios", "iphone", "ipad"], "iOS")]

/-- First entry of `l` one of whose tokens occurs in `ua`; `dflt` otherwise. -/
def firstMatch (ua : String) (dflt : String) : List (List String × String) → String
  | [] => dflt
  | (keys, name) :: rest =>
      if keys.any (fun k => containsSub ua k) then name else firstMatch ua dflt rest

/-- The user-agent classifier as the specification words it: lower-case the
input, then device type by keyword lists, browser and OS by first match in the
stated priority orders, `"Unknown"`/`"desktop"` defaults.  This definition
follows the spec text and is compared against the source-derived
`parseUserAgent`. -/
def claimClassifier (userAgent : String) : Device :=
  let ua := jsToLower userAgent
  let ty :=
    if mobileKeywords.any (fun k => containsSub ua k) then "mobile"
    else if tabletKeywords.any (fun k => containsSub ua k) then "tablet"
    else "desktop"
  { type := ty,
    browser := firstMatch ua "Unknown" browserTokens,
    os := firstMatch ua "Unknown" osTokens,
    isMobile := ty == "mobile" }

/-- Geographic fields of a click (`clickSchema.location`); absent fields model
keys that the source never sets on the plain `location` object. -/
structure Location where
  country : Option String
  region : Option String
  city : Option String
  timezone : Option String
  latitude : Option ℚ
  longitude : Option ℚ
  deriving Repr, DecidableEq

/-- The empty JavaScript object `{}` used for `location` when the geo lookup
returns nothing. -/
def emptyLocation : Location :=
  { country := none, region := none, city := none, timezone := none,
    latitude := none, longitude := none }

/-- The sentinel location `{ country: 'Local', city: 'Development' }` the
source assigns for loopback / absent client IPs. -/
def localDevLocation : Location :=
  { emptyLocation with country := some "Local", city := some "Development" }

/-- Result of `geoip.lookup`: country/region/city/timezone strings and the
`ll` coordinate pair. -/
structure GeoInfo where
  country : String
  region : String
  city : String
  timezone : String
  ll : Option (ℚ × ℚ)
  deriving Repr, DecidableEq

/-- A `Url` document (`urlSchema`).  `id` stands for the Mongo `_id`; dates are
rationals (milliseconds). -/
structure Url where
  id : Nat
  shortcode : String
  originalUrl : String
  createdAt : ℚ
  expiresAt : ℚ
  isActive : Bool
  totalClicks : Nat
  lastClickAt : Option ℚ
  tags : List String
  description : Option String
  deriving Repr, DecidableEq

/-- A `Click` document (`clickSchema`). -/
structure Click where
  shortcode : String
  timestamp : ℚ
  ip : Option String
  userAgent : String
  referer : String
  location : Location
  device : Device
  deriving Repr, DecidableEq

/-- The document store: the `urls` and `clicks` collections plus a fresh-id
counter for new `_id`s. -/
structure DB where
  urls : List Url
  clicks : List Click
  nextId : Nat
  deriving Repr, DecidableEq

/-- The request data gathered by the redirect route:
`{ ip: getClientIP(req), userAgent: req.get('User-Agent'), referer: req.get('Referer') }`. -/
structure RequestData where
  ip : Option String
  userAgent : Option String
  referer : Option String
  deriving Repr, DecidableEq

/-- The `urlSchema.virtual('isExpired')` getter: `new Date() > this.expiresAt`. -/
def isExpired (now : ℚ) (u : Url) : Bool :=
  now > u.expiresAt

/-- Mongo `updateOne`: rewrite the first document satisfying `p` with `f`. -/
def updateFirst (p : Url → Bool) (f : Url → Url) : List Url → List Url
  | [] => []
  | u :: us => if p u then f u :: us else u :: updateFirst p f us

/-- `UrlService.getUrlByShortcode`: `findOne({ shortcode, isActive: true })`;
if the hit is expired, mark it inactive (`updateOne`) and return null. -/
def getUrlByShortcode (now : ℚ) (sc : String) (db : DB) : Option Url × DB :=
  match db.urls.find? (fun u => u.shortcode == sc && u.isActive) with
  | none => (none, db)
  | some url =>
      if isExpired now url then
        (none, { db with
          urls := updateFirst (fun u => u.id == url.id)
            (fun u => { u with isActive := false }) db.urls })
      else (some url, db)

/-- `UrlService.parseRequestData`: build the click document.  `geoLookup`
stands for `geoip.lookup`; a `none` result leaves `location` as the empty
object, loopback or absent IPs get the Local/Development sentinel. -/
def parseRequestData (geoLookup : String → Option GeoInfo) (now : ℚ) (shortcode : String)
    (rd : RequestData) : Click :=
  let location :=
    match rd.ip with
    | some s =>
        if s != "" && s != "127.0.0.1" && s != "::1" then
          match geoLookup s with
          | some geo =>
              { country := some geo.country, region := some geo.region,
                city := some geo.city, timezone := some geo.timezone,
                latitude := geo.ll.map (fun p => p.1),
                longitude := geo.ll.map (fun p => p.2) }
          | none => emptyLocation
        else localDevLocation
    | none => localDevLocation
  { shortcode := shortcode,
    timestamp := now,
    ip := rd.ip,
    userAgent := jsOrStr rd.userAgent "Unknown",
    referer := jsOrStr rd.referer "Direct",
    location := location,
    device := parseUserAgent (rd.userAgent.getD "") }

/-- `UrlService.recordClick`: resolve the active link, persist the click, then
run `url.incrementClicks()`.  The increment is `this.totalClicks += 1` followed
by `this.save()` on the document *snapshot* read by `findOne`, so the stored
counter is overwritten with `snapshot.totalClicks + 1`. -/
def recordClick (geoLookup : String → Option GeoInfo) (now : ℚ) (sc : String)
    (rd : RequestData) (db : DB) : Option String × DB :=
  match getUrlByShortcode now sc db with
  | (none, db1) => (none, db1)
  | (some url, db1) =>
      let clickData := parseRequestData geoLookup now sc rd
      let db2 := { db1 with clicks := db1.clicks ++ [clickData] }
      let db3 := { db2 with
        urls := updateFirst (fun u => u.id == url.id)
          (fun u => { u with totalClicks := url.totalClicks + 1, lastClickAt := some now })
          db2.urls }
      (some url.originalUrl, db3)

/-- `urlSchema.statics.cleanupExpired`:
`updateMany({ expiresAt: { $lt: new Date() } }, { $set: { isActive: false } })`. -/
def cleanupExpired (now : ℚ) (urls : List Url) : List Url :=
  urls.map (fun u => if u.expiresAt < now then { u with isActive := false } else u)

/-- `UrlService.cleanupExpiredUrls` acting on the whole store. -/
def cleanupExpiredUrls (now : ℚ) (db : DB) : DB :=
  { db with urls := cleanupExpired now db.urls }

/-- A default document for positional (`getD`) access in theorem statements. -/
def defaultUrl : Url :=
  { id := 0, shortcode := "", originalUrl := "", createdAt := 0, expiresAt := 0,
    isActive := false, totalClicks := 0, lastClickAt := none, tags := [], description := none }

/-- JavaScript `x || dflt` for an optional number: `undefined`/`null` and `0`
are falsy. -/
def jsOrNum (x : Option ℚ) (dflt : ℚ) : ℚ :=
  match x with
  | none => dflt
  | some q => if q = 0 then dflt else q

/-- One character of `/^[a-zA-Z0-9]+$/`. -/
def isAlnumChar (c : Char) : Bool :=
  ('a' ≤ c && c ≤ 'z') || ('A' ≤ c && c ≤ 'Z') || ('0' ≤ c && c ≤ '9')

/-- The handler's shortcode charset test `/^[a-zA-Z0-9]+$/.test(shortcode)`. -/
def alnumOnly (s : String) : Bool :=
  s.toList.length > 0 && s.toList.all isAlnumChar

/-- The Mongoose `originalUrl` validator `/^https?:\/\/.+/`. -/
def urlPatternOk (s : String) : Bool :=
  (hasPre "http://".toList s.toList && s.toList.length > 7) ||
    (hasPre "https://".toList s.toList && s.toList.length > 8)

/-- The claim's uniform shortcode constraint `^[A-Za-z0-9]{3,20}$`. -/
def matchesShortcodePattern (s : String) : Bool :=
  s.toList.all isAlnumChar && 3 ≤ s.toList.length && s.toList.length ≤ 20

/-- The 62-character alphabet of `generateRandomShortcode`. -/
def chars62 : List Char :=
  "ABCDEFGHIJKLMNOPQRSTUVWXYZabcdefghijklmnopqrstuvwxyz0123456789".toList

/-- `generateRandomShortcode`: seven draws from the 62-character alphabet.
`draw` stands for the seven `Math.floor(Math.random() * chars.length)` calls. -/
def generateRandomShortcode (draw : Fin 7 → Fin 62) : String :=
  String.mk ((List.finRange 7).map (fun i => chars62.get ((draw i).cast (by rfl))))

/-- The pre-save generate-and-check loop
(`while (exists) { shortcode = generateRandomShortcode(); exists = ... }`).
`gen k` is the sequence of draws for the `k`-th candidate.  The source loops
without bound; `fuel` cuts off a finite prefix of the retry sequence and
`none` stands for not having terminated within it. -/
def genUniqueShortcode (gen : Nat → Fin 7 → Fin 62) (urls : List Url) :
    Nat → Nat → Option String
  | 0, _ => none
  | fuel + 1, k =>
      if urls.any (fun u => u.shortcode == generateRandomShortcode (gen k)) then
        genUniqueShortcode gen urls fuel (k + 1)
      else some (generateRandomShortcode (gen k))

/-- The payload `UrlService.createShortUrl` receives. -/
structure NewUrlData where
  originalUrl : String
  validity : Option ℚ
  shortcode : Option String
  tags : List String
  description : Option String
  deriving Repr, DecidableEq

/-- The freshly constructed `Url` document (schema defaults filled in). -/
def newUrlDoc (now expiresAt : ℚ) (sc : String) (d : NewUrlData) (docId : Nat) : Url :=
  { id := docId, shortcode := sc, originalUrl := d.originalUrl,
    createdAt := now, expiresAt := expiresAt, isActive := true,
    totalClicks := 0, lastClickAt := none, tags := d.tags,
    description := d.description }

/-- `urlDoc.save()`: the pre-save hook auto-generates a shortcode when none is
set, Mongoose validates the schema (`shortcode` min/max length, `originalUrl`
pattern), and the unique index on `shortcode` — which covers *all* documents,
active or not — rejects duplicates with an `E11000` error. -/
def saveNewUrl (fuel : Nat) (gen : Nat → Fin 7 → Fin 62) (now expiresAt : ℚ)
    (d : NewUrlData) (db : DB) : Except String (Url × DB) :=
  match (if jsTruthyStr d.shortcode then d.shortcode
         else genUniqueShortcode gen db.urls fuel 0) with
  | none => Except.error "shortcode generation ran out of fuel"
  | some sc =>
      if sc.toList.length < 3 || sc.toList.length > 20 then
        Except.error "Url validation failed"
      else if !(urlPatternOk d.originalUrl) then
        Except.error "Url validation failed"
      else if db.urls.any (fun u => u.shortcode == sc) then
        Except.error "E11000 duplicate key error collection: url_shortener.urls index: shortcode_1 dup key"
      else
        Except.ok
          (newUrlDoc now expiresAt sc d db.nextId,
           { db with
             urls := db.urls ++ [newUrlDoc now expiresAt sc d db.nextId]
             nextId := db.nextId + 1 })

/-- What the service hands back on success. -/
structure CreateOut where
  shortcode : String
  originalUrl : String
  shortLink : String
  expiresAt : ℚ
  createdAt : ℚ
  deriving Repr, DecidableEq

/-- `UrlService.createShortUrl`: compute the expiry, pre-check a caller-supplied
shortcode against *active* documents only, save, and re-throw any inner
failure as `Failed to create short URL: <message>`. -/
def createShortUrl (fuel : Nat) (gen : Nat → Fin 7 → Fin 62) (now : ℚ)
    (d : NewUrlData) (db : DB) : Except String (CreateOut × DB) :=
  let validity := match d.validity with | none => 30 | some v => v
  let expiresAt := now + validity * 60 * 1000
  let inner : Except String (Url × DB) :=
    if jsTruthyStr d.shortcode &&
        db.urls.any (fun u => u.shortcode == d.shortcode.getD "" && u.isActive) then
      Except.error "Custom shortcode already exists"
    else saveNewUrl fuel gen now expiresAt d db
  match inner with
  | Except.error msg => Except.error ("Failed to create short URL: " ++ msg)
  | Except.ok (url, db1) =>
      Except.ok
        ({ shortcode := url.shortcode, originalUrl := url.originalUrl,
           shortLink := "http://localhost:8080/" ++ url.shortcode,
           expiresAt := url.expiresAt, createdAt := url.createdAt }, db1)

/-- Body of `POST /shorturls`. -/
structure CreateReq where
  url : Option String
  validity : Option ℚ
  shortcode : Option String
  tags : Option (List String)
  description : Option String
  deriving Repr, DecidableEq

/-- An HTTP outcome of the create route. -/
inductive HttpRes where
  | created (shortLink : String) (expiry : ℚ) (shortcode : String)
  | err (status : Nat) (code : String)
  deriving Repr, DecidableEq

/-- The validity validation of the `POST /shorturls` handler:
`validity || 30`, then reject when `<= 0` or `> 525600`. -/
def validateValidity (validity : Option ℚ) : Except String ℚ :=
  if jsOrNum validity 30 ≤ 0 ∨ jsOrNum validity 30 > 525600 then
    Except.error "INVALID_VALIDITY"
  else Except.ok (jsOrNum validity 30)

/-- The `POST /shorturls` handler: validations in source order, then the
service call; a thrown message containing `already exists` maps to
409 `SHORTCODE_EXISTS`, every other failure to 500 `INTERNAL_ERROR`.
`isValidUrl` stands for the external `validator.isURL` check. -/
def postShorturls (fuel : Nat) (gen : Nat → Fin 7 → Fin 62) (isValidUrl : String → Bool)
    (now : ℚ) (req : CreateReq) (db : DB) : HttpRes × DB :=
  if !(jsTruthyStr req.url) then (HttpRes.err 400 "MISSING_URL", db)
  else if !(isValidUrl (req.url.getD "")) then (HttpRes.err 400 "INVALID_URL", db)
  else if jsTruthyStr req.shortcode && !(alnumOnly (req.shortcode.getD "")) then
    (HttpRes.err 400 "INVALID_SHORTCODE", db)
  else if jsTruthyStr req.shortcode &&
      ((req.shortcode.getD "").toList.length < 3 || (req.shortcode.getD "").toList.length > 20) then
    (HttpRes.err 400 "INVALID_SHORTCODE_LENGTH", db)
  else
    match validateValidity req.validity with
    | Except.error _ => (HttpRes.err 400 "INVALID_VALIDITY", db)
    | Except.ok validityMinutes =>
        match createShortUrl fuel gen now
            { originalUrl := req.url.getD "", validity := some validityMinutes,
              shortcode := req.shortcode, tags := req.tags.getD [],
              description := req.description } db with
        | Except.ok (out, db1) => (HttpRes.created out.shortLink out.expiresAt out.shortcode, db1)
        | Except.error msg =>
            if containsSub msg "already exists" then (HttpRes.err 409 "SHORTCODE_EXISTS", db)
            else (HttpRes.err 500 "INTERNAL_ERROR", db)

/-- A constant draw sequence (always the first alphabet character). -/
def constDraw : Nat → Fin 7 → Fin 62 := fun _ _ => 0

/-- The empty store. -/
def emptyDb : DB := { urls := [], clicks := [], nextId := 0 }

/-- A concrete active, unexpired link used to instantiate theorems. -/
def exUrl : Url :=
  { id := 1, shortcode := "abc", originalUrl := "https://example.com",
    createdAt := 0, expiresAt := 1000, isActive := true, totalClicks := 0,
    lastClickAt := none, tags := [], description := none }

/-- A concrete store holding just `exUrl`. -/
def exDb : DB :=
  { urls := [exUrl], clicks := [], nextId := 2 }

/-- A concrete *inactive* link still present in the store (expired links are
deactivated, never deleted), so its shortcode still occupies the unique
index. -/
def exUrlInactive : Url :=
  { id := 1, shortcode := "abc", originalUrl := "https://example.com",
    createdAt := 0, expiresAt := 10, isActive := false, totalClicks := 0,
    lastClickAt := none, tags := [], description := none }

/-- A concrete store holding just `exUrlInactive`. -/
def exDbInactive : DB :=
  { urls := [exUrlInactive], clicks := [], nextId := 2 }

/-- A concrete link whose expiry (10) has passed but whose active flag is
still set, as left behind between two sweeper runs. -/
def exUrlExpired : Url :=
  { id := 1, shortcode := "abc", originalUrl := "https://example.com",
    createdAt := 0, expiresAt := 10, isActive := true, totalClicks := 0,
    lastClickAt := none, tags := [], description := none }

/-- A concrete store holding just `exUrlExpired`. -/
def exDbExpired : DB :=
  { urls := [exUrlExpired], clicks := [], nextId := 2 }

/-- Thread-local state of one in-flight `recordClick` request: a program
counter (0 = before the `findOne`, 1 = before the click insert, 2 = before
`url.save()`, 3 = done), the `Url` snapshot read at step 0, and the final
result once done. -/
structure ThreadSt where
  pc : Nat
  snap : Option Url
  result : Option (Option String)
  deriving Repr, DecidableEq

/-- A request that has not started yet. -/
def rcInit : ThreadSt := { pc := 0, snap := none, result := none }

/-- One atomic store operation of an in-flight `recordClick`.  Step 0 is the
`findOne` of `getUrlByShortcode` (with its lazy expiry flip); step 1 persists
the click document; step 2 is `incrementClicks`, i.e.
`this.totalClicks += 1; this.save()`, which writes back the *snapshot's*
counter plus one — an application-layer read-modify-write, not a storage-layer
atomic add. -/
def rcStep (g : String → Option GeoInfo) (now : ℚ) (sc : String) (rd : RequestData)
    (t : ThreadSt) (db : DB) : ThreadSt × DB :=
  match t.pc with
  | 0 =>
      match getUrlByShortcode now sc db with
      | (none, db1) => ({ t with pc := 3, result := some none }, db1)
      | (some url, db1) => ({ t with pc := 1, snap := some url }, db1)
  | 1 =>
      ({ t with pc := 2 }, { db with clicks := db.clicks ++ [parseRequestData g now sc rd] })
  | 2 =>
      match t.snap with
      | some url =>
          ({ t with pc := 3, result := some (some url.originalUrl) },
           { db with
             urls := updateFirst (fun u => u.id == url.id)
               (fun u => { u with totalClicks := url.totalClicks + 1, lastClickAt := some now })
               db.urls })
      | none => ({ t with pc := 3, result := some none }, db)
  | _ => (t, db)

/-- Run an interleaving of several concurrent `recordClick` requests on the
same shortcode: `sched` names, step by step, which request advances. -/
def runSched (g : String → Option GeoInfo) (now : ℚ) (sc : String) (rd : RequestData) :
    List Nat → List ThreadSt → DB → List ThreadSt × DB
  | [], ts, db => (ts, db)
  | i :: rest, ts, db =>
      match rcStep g now sc rd (ts.getD i { pc := 3, snap := none, result := none }) db with
      | (t1, db1) => runSched g now sc rd rest (ts.set i t1) db1

/-- A click record as returned by analytics queries: the `Click` fields with
the client IP projected away (`.select('-ip')`). -/
structure ClickView where
  shortcode : String
  timestamp : ℚ
  userAgent : String
  referer : String
  location : Location
  device : Device
  deriving Repr, DecidableEq

/-- Drop the IP field of a click. -/
def toView (c : Click) : ClickView :=
  { shortcode := c.shortcode, timestamp := c.timestamp, userAgent := c.userAgent,
    referer := c.referer, location := c.location, device := c.device }

/-- Insert into a list kept sorted by `key`, descending. -/
def insertDescBy {α : Type} (key : α → ℚ) (c : α) : List α → List α
  | [] => [c]
  | d :: ds => if key d ≤ key c then c :: d :: ds else d :: insertDescBy key c ds

/-- Sort descending by `key` (the embedding of Mongo `.sort({field: -1})`). -/
def sortDescBy {α : Type} (key : α → ℚ) (l : List α) : List α :=
  l.foldr (insertDescBy key) []

/-- `clickSchema.statics.getClicksByShortcode`: clicks of one shortcode,
newest first, capped at `limit`, IP excluded. -/
def getClicksByShortcode (sc : String) (limit : Nat) (clicks : List Click) : List ClickView :=
  ((sortDescBy (fun c => c.timestamp)
    (clicks.filter (fun c => c.shortcode == sc))).take limit).map toView

/-- One group of `getLocationStats`: `_id = {country, city}`, a count and the
latest click timestamp. -/
structure LocationGroup where
  country : Option String
  city : Option String
  count : Nat
  lastClick : ℚ
  deriving Repr, DecidableEq

/-- Fold one click into the per-(country, city) groups. -/
def upsertLocation (c : Click) : List LocationGroup → List LocationGroup
  | [] => [{ country := c.location.country, city := c.location.city,
             count := 1, lastClick := c.timestamp }]
  | g :: gs =>
      if g.country == c.location.country && g.city == c.location.city then
        { g with count := g.count + 1, lastClick := max g.lastClick c.timestamp } :: gs
      else g :: upsertLocation c gs

/-- `clickSchema.statics.getLocationStats`: group by (country, city), count
descending, top 50. -/
def getLocationStats (sc : String) (clicks : List Click) : List LocationGroup :=
  (sortDescBy (fun g => (g.count : ℚ))
    ((clicks.filter (fun c => c.shortcode == sc)).foldl
      (fun acc c => upsertLocation c acc) [])).take 50

/-- One group of `getDeviceStats`: `_id = {type, browser, os}` and a count. -/
structure DeviceGroup where
  type : String
  browser : String
  os : String
  count : Nat
  deriving Repr, DecidableEq

/-- Fold one click into the per-(type, browser, os) groups. -/
def upsertDevice (c : Click) : List DeviceGroup → List DeviceGroup
  | [] => [{ type := c.device.type, browser := c.device.browser,
             os := c.device.os, count := 1 }]
  | g :: gs =>
      if g.type == c.device.type && g.browser == c.device.browser && g.os == c.device.os then
        { g with count := g.count + 1 } :: gs
      else g :: upsertDevice c gs

/-- `clickSchema.statics.getDeviceStats`: group by device triple, count
descending. -/
def getDeviceStats (sc : String) (clicks : List Click) : List DeviceGroup :=
  sortDescBy (fun g => (g.count : ℚ))
    ((clicks.filter (fun c => c.shortcode == sc)).foldl
      (fun acc c => upsertDevice c acc) [])

/-- One group of `getRefererStats`: `_id = referer` and a count. -/
structure RefererGroup where
  referer : String
  count : Nat
  deriving Repr, DecidableEq

/-- Fold one click into the per-referer groups. -/
def upsertReferer (c : Click) : List RefererGroup → List RefererGroup
  | [] => [{ referer := c.referer, count := 1 }]
  | g :: gs =>
      if g.referer == c.referer then { g with count := g.count + 1 } :: gs
      else g :: upsertReferer c gs

/-- `clickSchema.statics.getRefererStats`: group by referer, count descending,
top 20. -/
def getRefererStats (sc : String) (clicks : List Click) : List RefererGroup :=
  (sortDescBy (fun g => (g.count : ℚ))
    ((clicks.filter (fun c => c.shortcode == sc)).foldl
      (fun acc c => upsertReferer c acc) [])).take 20

/-- The full statistics payload of `UrlService.getUrlStats`. -/
structure UrlStats where
  originalUrl : String
  shortcode : String
  createdAt : ℚ
  expiresAt : ℚ
  isActive : Bool
  isExpired : Bool
  totalClicks : Nat
  lastClickAt : Option ℚ
  tags : List String
  description : Option String
  recentClicks : List ClickView
  locationStats : List LocationGroup
  deviceStats : List DeviceGroup
  refererStats : List RefererGroup
  deriving Repr, DecidableEq

/-- `UrlService.getUrlStats`: `findOne({ shortcode })` — *no* active or expiry
filter — then the document fields plus all analytics breakdowns (recent clicks
capped at 100). -/
def getUrlStats (now : ℚ) (sc : String) (db : DB) : Option UrlStats :=
  (db.urls.find? (fun u => u.shortcode == sc)).map (fun url =>
    { originalUrl := url.originalUrl, shortcode := url.shortcode,
      createdAt := url.createdAt, expiresAt := url.expiresAt,
      isActive := url.isActive, isExpired := isExpired now url,
      totalClicks := url.totalClicks, lastClickAt := url.lastClickAt,
      tags := url.tags, description := url.description,
      recentClicks := getClicksByShortcode sc 100 db.clicks,
      locationStats := getLocationStats sc db.clicks,
      deviceStats := getDeviceStats sc db.clicks,
      refererStats := getRefererStats sc db.clicks })

/-! ## Theorems -/

theorem updateFirst_map_totalClicks (p : Url → Bool) (f : Url → Url)
    (hf : ∀ u, (f u).totalClicks = u.totalClicks) :
    ∀ l : List Url,
      (updateFirst p f l).map (fun u => u.totalClicks) = l.map (fun u => u.totalClicks)
  | [] => rfl
  | a :: as => by
      by_cases h : p a <;>
        simp [updateFirst, h, hf a, updateFirst_map_totalClicks p f hf as]

theorem updateFirst_flip_inactive (sc : String) (url : Url) :
    ∀ l : List Url, (l.map (fun u => u.id)).Nodup → (l.map (fun u => u.shortcode)).Nodup →
      url ∈ l → url.shortcode = sc →
      ∀ u ∈ updateFirst (fun v => v.id == url.id) (fun v => { v with isActive := false }) l,
        u.shortcode = sc → u.isActive = false
  | [] => by simp
  | a :: as => by
      intro hid hsc hmem hsceq u hu husc
      simp only [List.map_cons, List.nodup_cons] at hid hsc
      obtain ⟨hida, hidas⟩ := hid
      obtain ⟨hsca, hscas⟩ := hsc
      by_cases hmatch : a.id = url.id
      · -- the head is the unique document carrying `url.id`, hence is `url`
        have haurl : a = url := by
          rcases List.mem_cons.mp hmem with h | h
          · exact h.symm
          · exact absurd (hmatch ▸ List.mem_map_of_mem (fun u => u.id) h) hida
        simp only [updateFirst, beq_iff_eq, hmatch, if_true] at hu
        rcases List.mem_cons.mp hu with h | h
        · rw [h]
        · have h1 : u.shortcode ∈ List.map (fun u => u.shortcode) as :=
            List.mem_map_of_mem (fun u => u.shortcode) h
          rw [husc, ← show a.shortcode = sc from by rw [haurl, hsceq]] at h1
          exact absurd h1 hsca
      · have hurlas : url ∈ as := by
          rcases List.mem_cons.mp hmem with h | h
          · exact absurd (congrArg Url.id h.symm) hmatch
          · exact h
        simp only [updateFirst, beq_iff_eq, hmatch, if_false] at hu
        rcases List.mem_cons.mp hu with h | h
        · subst h
          have h1 : url.shortcode ∈ List.map (fun u => u.shortcode) as :=
            List.mem_map_of_mem (fun u => u.shortcode) hurlas
          rw [hsceq, ← husc] at h1
          exact absurd h1 hsca
        · exact updateFirst_flip_inactive sc url as hidas hscas hurlas hsceq u h husc

theorem getD_map_lt {α β : Type} (f : α → β) (l : List α) (i : Nat) (h : i < l.length)
    (d : α) (d' : β) : (l.map f).getD i d' = f (l.getD i d) := by
  induction l generalizing i with
  | nil => simp at h
  | cons a as ih =>
      cases i with
      | zero => simp [List.getD]
      | succ n =>
          simp only [List.length_cons, Nat.succ_lt_succ_iff] at h
          simpa [List.getD] using ih n h

/-- C8: at a fixed time, `cleanupExpired` is idempotent; it deletes no click
and no link, keeps every link at its position, and changes nothing except
setting the active flag to false on exactly the links whose expiry has
passed. -/
theorem cleanupExpired_idempotent_and_flip_only (now : ℚ) (db : DB) :
    cleanupExpiredUrls now (cleanupExpiredUrls now db) = cleanupExpiredUrls now db ∧
    (cleanupExpiredUrls now db).clicks = db.clicks ∧
    (cleanupExpiredUrls now db).urls.length = db.urls.length ∧
    ∀ i : Fin db.urls.length,
      (cleanupExpiredUrls now db).urls.getD i.val defaultUrl =
        (if (db.urls.getD i.val defaultUrl).expiresAt < now
         then { db.urls.getD i.val defaultUrl with isActive := false }
         else db.urls.getD i.val defaultUrl) := by
  refine ⟨?_, rfl, by simp [cleanupExpiredUrls, cleanupExpired], ?_⟩
  · have h : cleanupExpired now (cleanupExpired now db.urls) = cleanupExpired now db.urls := by
      simp only [cleanupExpired, List.map_map]
      apply List.map_congr_left
      intro u _
      by_cases h : u.expiresAt < now <;> simp [h]
    simp [cleanupExpiredUrls, h]
  · intro i
    show (db.urls.map _).getD i.val defaultUrl = _
    rw [getD_map_lt _ _ i.val i.isLt defaultUrl defaultUrl]

/-- C5: the user-agent classifier is a pure function of the lower-cased input
that agrees everywhere with the classifier described by the specification
(mobile-keyword match, else tablet, else desktop; browser and OS by first
match in the stated priority orders, `"Unknown"` otherwise); and the concrete
"Mozilla ... iPhone ... Safari" user agent classifies as
`{type := mobile, os := iOS, browser := Safari}`. -/
theorem parseUserAgent_matches_spec_classifier :
    (∀ ua, parseUserAgent ua = claimClassifier ua) ∧
    parseUserAgent
        "Mozilla/5.0 (iPhone; CPU iPhone OS 16_0 like Gecko) Version/16.0 Mobile/15E148 Safari/604.1" =
      { type := "mobile", browser := "Safari", os := "iOS", isMobile := true } := by
  constructor
  · intro ua
    simp [parseUserAgent, claimClassifier, firstMatch, mobileKeywords, tabletKeywords,
      browserTokens, osTokens, List.any_cons, List.any_nil, Bool.or_assoc]
  · decide

/-- C6: every recorded click gets the `"Direct"` referer sentinel when the
request carries no (or an empty) referrer; loopback or absent client IPs get
the Local/Development sentinel location; a geo-resolver miss leaves the
location empty (every field unknown) without any error, and the click is
still recorded and the redirect still served. -/
theorem click_sentinels (g : String → Option GeoInfo) (now : ℚ) (sc : String)
    (rd : RequestData) :
    (parseRequestData g now sc { rd with referer := none }).referer = "Direct" ∧
    (parseRequestData g now sc { rd with referer := some "" }).referer = "Direct" ∧
    (parseRequestData g now sc { rd with ip := none }).location = localDevLocation ∧
    (parseRequestData g now sc { rd with ip := some "" }).location = localDevLocation ∧
    (parseRequestData g now sc { rd with ip := some "127.0.0.1" }).location = localDevLocation ∧
    (parseRequestData g now sc { rd with ip := some "::1" }).location = localDevLocation ∧
    (∀ s, g s = none → s ≠ "" → s ≠ "127.0.0.1" → s ≠ "::1" →
      (parseRequestData g now sc { rd with ip := some s }).location = emptyLocation) ∧
    (∀ db url, (getUrlByShortcode now sc db).fst = some url →
      (recordClick g now sc rd db).fst = some url.originalUrl ∧
      (recordClick g now sc rd db).snd.clicks = db.clicks ++ [parseRequestData g now sc rd]) := by
  refine ⟨rfl, rfl, rfl, rfl, rfl, rfl, ?_, ?_⟩
  · intro s hg h1 h2 h3
    simp [parseRequestData, h1, h2, h3, hg]
  · intro db url h
    unfold recordClick
    unfold getUrlByShortcode at h ⊢
    cases hf : db.urls.find? (fun u => u.shortcode == sc && u.isActive) with
    | none => rw [hf] at h; exact absurd h (by simp)
    | some u =>
        rw [hf] at h
        by_cases he : isExpired now u
        · simp [he] at h
        · simp only [he, if_neg, Bool.false_eq_true, not_false_eq_true, if_false] at h ⊢
          simp at h
          subst h
          simp [he]

theorem click_sentinels_witness :
    (parseRequestData (fun _ => none) 0 "abc"
        { ip := some "8.8.8.8", userAgent := none, referer := none }).location = emptyLocation ∧
    (recordClick (fun _ => none) 0 "abc"
        { ip := some "8.8.8.8", userAgent := none, referer := none } exDb).fst =
      some "https://example.com" ∧
    (recordClick (fun _ => none) 0 "abc"
        { ip := some "8.8.8.8", userAgent := none, referer := none } exDb).snd.clicks =
      exDb.clicks ++ [parseRequestData (fun _ => none) 0 "abc"
        { ip := some "8.8.8.8", userAgent := none, referer := none }] := by
  have h := click_sentinels (fun _ => none) 0 "abc"
    { ip := some "8.8.8.8", userAgent := none, referer := none }
  have h8 := h.2.2.2.2.2.2.2 exDb exUrl (by decide)
  exact ⟨h.2.2.2.2.2.2.1 "8.8.8.8" rfl (by decide) (by decide) (by decide), h8.1, h8.2⟩

theorem recordClick_not_found_aux (g : String → Option GeoInfo) (now : ℚ) (sc : String)
    (rd : RequestData) (db : DB)
    (hid : (db.urls.map (fun u => u.id)).Nodup)
    (hsc : (db.urls.map (fun u => u.shortcode)).Nodup)
    (hno : ∀ u ∈ db.urls, u.shortcode = sc → u.isActive = true → now > u.expiresAt) :
    (recordClick g now sc rd db).fst = none ∧
    (recordClick g now sc rd db).snd.clicks = db.clicks ∧
    (recordClick g now sc rd db).snd.urls.map (fun u => u.totalClicks) =
      db.urls.map (fun u => u.totalClicks) ∧
    ∀ u ∈ (recordClick g now sc rd db).snd.urls, u.shortcode = sc → u.isActive = false := by
  cases hf : db.urls.find? (fun u => u.shortcode == sc && u.isActive) with
  | none =>
      have hall := List.find?_eq_none.mp hf
      simp only [recordClick, getUrlByShortcode, hf]
      refine ⟨by trivial, by trivial, by trivial, ?_⟩
      intro u hu husc
      simpa [husc] using hall u hu
  | some url =>
      have hpred := List.find?_some hf
      have hmem := List.mem_of_find?_eq_some hf
      simp only [Bool.and_eq_true, beq_iff_eq] at hpred
      obtain ⟨hsceq, hact⟩ := hpred
      have hexpb : isExpired now url = true := by
        simp only [isExpired, decide_eq_true_eq]
        exact hno url hmem hsceq hact
      simp only [recordClick, getUrlByShortcode, hf, hexpb, if_true]
      refine ⟨by trivial, by trivial, ?_, ?_⟩
      · exact updateFirst_map_totalClicks (fun u => u.id == url.id)
          (fun u => { u with isActive := false }) (fun u => rfl) db.urls
      · intro u hu husc
        exact updateFirst_flip_inactive sc url db.urls hid hsc hmem hsceq u hu husc

/-- C4: when no active, unexpired link carries the shortcode, `recordClick`
returns not-found, persists no click, leaves every link's click counter
unchanged, and afterwards every link with that shortcode — in particular an
expired one whose flag was still set — has its active flag false. -/
theorem recordClick_not_found (g : String → Option GeoInfo) (now : ℚ) (sc : String)
    (rd : RequestData) (db : DB)
    (hid : (db.urls.map (fun u => u.id)).Nodup)
    (hsc : (db.urls.map (fun u => u.shortcode)).Nodup)
    (hno : ∀ u ∈ db.urls, u.shortcode = sc → u.isActive = true → now > u.expiresAt) :
    (recordClick g now sc rd db).fst = none ∧
    (recordClick g now sc rd db).snd.clicks = db.clicks ∧
    (recordClick g now sc rd db).snd.urls.map (fun u => u.totalClicks) =
      db.urls.map (fun u => u.totalClicks) ∧
    ∀ u ∈ (recordClick g now sc rd db).snd.urls, u.shortcode = sc → u.isActive = false :=
  recordClick_not_found_aux g now sc rd db hid hsc hno

theorem recordClick_not_found_witness :
    (recordClick (fun _ => none) 100 "abc"
        { ip := none, userAgent := none, referer := none } exDbExpired).fst = none ∧
    (recordClick (fun _ => none) 100 "abc"
        { ip := none, userAgent := none, referer := none } exDbExpired).snd.clicks = [] := by
  have h := recordClick_not_found (fun _ => none) 100 "abc"
    { ip := none, userAgent := none, referer := none } exDbExpired
    (by decide) (by decide) (by decide)
  exact ⟨h.1, h.2.1⟩

theorem postShorturls_snd (fuel : Nat) (gen : Nat → Fin 7 → Fin 62)
    (ivu : String → Bool) (now : ℚ) (req : CreateReq) (db : DB) :
    (postShorturls fuel gen ivu now req db).snd = db ∨
    ∃ sl e sc, (postShorturls fuel gen ivu now req db).fst = HttpRes.created sl e sc := by
  unfold postShorturls
  repeat' split
  all_goals first
    | exact Or.inl rfl
    | exact Or.inr ⟨_, _, _, rfl⟩

/-- C2 is refuted: a validity of `0` lies outside `[1, 525600]`, yet the
request does not fail with `INVALID_VALIDITY` — `validity || 30` treats `0` as
absent, so the request succeeds with the 30-minute default — and the
non-integer validity `1/2` is accepted unchanged, so acceptance is not
restricted to integers. -/
theorem validity_outside_range_accepted :
    validateValidity (some 0) = Except.ok 30 ∧
    validateValidity (some (mkRat 1 2)) = Except.ok (mkRat 1 2) ∧
    (postShorturls 1 constDraw urlPatternOk 0
        { url := some "https://example.com", validity := some 0, shortcode := some "abc",
          tags := none, description := none } emptyDb).fst =
      HttpRes.created "http://localhost:8080/abc" (0 + 30 * 60 * 1000) "abc" :=
  ⟨rfl, rfl, rfl⟩

/-- C2 amended: an omitted validity — and likewise the falsy value `0` —
defaults to 30 minutes; any other validity `v` (integer or not) is accepted
exactly when `0 < v ≤ 525600` and otherwise fails with `INVALID_VALIDITY`;
a validity failure leaves the store untouched. -/
theorem validateValidity_spec :
    validateValidity none = Except.ok 30 ∧
    validateValidity (some 0) = Except.ok 30 ∧
    (∀ v : ℚ, v ≠ 0 → validateValidity (some v) =
      (if 0 < v ∧ v ≤ 525600 then Except.ok v else Except.error "INVALID_VALIDITY")) ∧
    (∀ fuel gen ivu now req db,
      (postShorturls fuel gen ivu now req db).fst = HttpRes.err 400 "INVALID_VALIDITY" →
      (postShorturls fuel gen ivu now req db).snd = db) := by
  refine ⟨rfl, rfl, ?_, ?_⟩
  · intro v hv
    simp only [validateValidity, jsOrNum, if_neg hv]
    by_cases h : 0 < v ∧ v ≤ 525600
    · rw [if_pos h, if_neg]
      rintro (h1 | h2)
      · linarith [h.1]
      · linarith [h.2]
    · rw [if_neg h, if_pos]
      by_cases h0 : 0 < v
      · right
        by_contra hgt
        exact h ⟨h0, by linarith⟩
      · left
        linarith [not_lt.mp h0]
  · intro fuel gen ivu now req db h
    rcases postShorturls_snd fuel gen ivu now req db with hs | ⟨sl, e, sc, hc⟩
    · exact hs
    · rw [h] at hc
      cases hc

theorem validateValidity_spec_witness :
    validateValidity (some 7) = Except.ok 7 ∧
    validateValidity (some (-5)) = Except.error "INVALID_VALIDITY" ∧
    (postShorturls 1 constDraw urlPatternOk 0
        { url := some "https://example.com", validity := some (-5), shortcode := some "abc",
          tags := none, description := none } emptyDb).snd = emptyDb := by
  have h := validateValidity_spec
  refine ⟨?_, ?_, h.2.2.2 1 constDraw urlPatternOk 0 _ emptyDb (by rfl)⟩
  · have h7 := h.2.2.1 7 (by norm_num)
    rw [if_pos (by norm_num : (0 : ℚ) < 7 ∧ (7 : ℚ) ≤ 525600)] at h7
    exact h7
  · have h5 := h.2.2.1 (-5) (by norm_num)
    rw [if_neg (by norm_num : ¬((0 : ℚ) < -5 ∧ (-5 : ℚ) ≤ 525600))] at h5
    exact h5

/-- C3 is refuted in its second half: with an *inactive* document still
holding the shortcode `abc`, the active-only pre-check passes, the store's
unique index rejects the insert with an `E11000` duplicate-key error, and —
because that message does not contain `already exists` — the handler surfaces
it as 500 `INTERNAL_ERROR`, not as the 409 `SHORTCODE_EXISTS` conflict. -/
theorem store_duplicate_maps_to_internal_error :
    (postShorturls 1 constDraw urlPatternOk 0
        { url := some "https://example.com", validity := some 30, shortcode := some "abc",
          tags := none, description := none } exDbInactive).fst =
      HttpRes.err 500 "INTERNAL_ERROR" ∧
    (postShorturls 1 constDraw urlPatternOk 0
        { url := some "https://example.com", validity := some 30, shortcode := some "abc",
          tags := none, description := none } exDbInactive).snd = exDbInactive :=
  ⟨rfl, rfl⟩

/-- C3 amended: a caller-supplied shortcode colliding with an existing
*active* document is caught by the pre-check and surfaces as the 409
`SHORTCODE_EXISTS` conflict; but a uniqueness violation raised by the store
itself during the insert (shortcode held only by inactive documents, which
the pre-check ignores) surfaces as 500 `INTERNAL_ERROR`, because the
duplicate-key message lacks the `already exists` marker the handler greps
for. -/
theorem create_conflict_behaviour (fuel : Nat) (gen : Nat → Fin 7 → Fin 62)
    (ivu : String → Bool) (now : ℚ) (u0 sc : String) (v : Option ℚ)
    (tgs : Option (List String)) (desc : Option String) (db : DB)
    (hu1 : u0 ≠ "") (hu2 : ivu u0 = true)
    (hsc1 : alnumOnly sc = true) (hsc2 : 3 ≤ sc.toList.length) (hsc3 : sc.toList.length ≤ 20)
    (hv : ¬(jsOrNum v 30 ≤ 0 ∨ jsOrNum v 30 > 525600)) :
    ((∃ u ∈ db.urls, u.shortcode = sc ∧ u.isActive = true) →
      postShorturls fuel gen ivu now
        { url := some u0, validity := v, shortcode := some sc, tags := tgs, description := desc }
        db = (HttpRes.err 409 "SHORTCODE_EXISTS", db)) ∧
    ((∀ u ∈ db.urls, ¬(u.shortcode = sc ∧ u.isActive = true)) →
      (∃ u ∈ db.urls, u.shortcode = sc) → urlPatternOk u0 = true →
      postShorturls fuel gen ivu now
        { url := some u0, validity := v, shortcode := some sc, tags := tgs, description := desc }
        db = (HttpRes.err 500 "INTERNAL_ERROR", db)) := by
  have hjt : jsTruthyStr (some u0) = true := by simp [jsTruthyStr, hu1]
  have hscne : sc ≠ "" := by
    intro h
    rw [h] at hsc2
    simp at hsc2
  have hscjt : jsTruthyStr (some sc) = true := by simp [jsTruthyStr, hscne]
  have h3 : (sc.toList.length < 3) = False := eq_false (by omega)
  have h20 : (sc.toList.length > 20) = False := eq_false (by omega)
  constructor
  · intro hex
    obtain ⟨u, hu, husc, hact⟩ := hex
    have hany : db.urls.any (fun w => w.shortcode == (some sc).getD "" && w.isActive) = true :=
      List.any_eq_true.mpr ⟨u, hu, by simp [husc, hact]⟩
    simp only [postShorturls, hjt, hscjt, hsc1, h3, h20, hu2, Bool.not_true, Bool.false_and,
      Bool.and_false, Bool.true_and, if_false, Option.getD_some, Bool.not_false, ite_false,
      Bool.or_self, validateValidity]
    rw [if_neg hv]
    simp only [createShortUrl, hscjt, hany, Bool.true_and, if_true]
    norm_num [containsSub]
    decide
  · intro hnone hex hup
    obtain ⟨u, hu, husc⟩ := hex
    have hanyF : (db.urls.any fun w => w.shortcode == (some sc).getD "" && w.isActive) = false := by
      apply List.any_eq_false.mpr
      intro w hw
      simp only [Option.getD_some, Bool.and_eq_true, beq_iff_eq, not_and]
      intro hws
      have hw2 := hnone w hw
      simp [hws] at hw2
      simp [hw2]
    have hanyT : (db.urls.any fun w => w.shortcode == sc) = true :=
      List.any_eq_true.mpr ⟨u, hu, by simp [husc]⟩
    simp only [postShorturls, hjt, hscjt, hsc1, h3, h20, hu2, Bool.not_true, Bool.false_and,
      Bool.and_false, Bool.true_and, if_false, Option.getD_some, Bool.not_false, ite_false,
      Bool.or_self, validateValidity]
    rw [if_neg hv]
    simp only [createShortUrl, hscjt, hanyF, Bool.true_and, Bool.false_and, if_false,
      ite_false, saveNewUrl, if_true, ite_true, h3, h20, hup, hanyT, Bool.not_true,
      Bool.not_false, decide_False, Bool.or_self]
    norm_num [containsSub]
    decide

theorem create_conflict_behaviour_witness :
    postShorturls 1 constDraw urlPatternOk 0
      { url := some "https://example.com", validity := some 30, shortcode := some "abc",
        tags := none, description := none } exDb = (HttpRes.err 409 "SHORTCODE_EXISTS", exDb) ∧
    postShorturls 1 constDraw urlPatternOk 0
      { url := some "https://example.com", validity := some 30, shortcode := some "abc",
        tags := none, description := none } exDbInactive =
      (HttpRes.err 500 "INTERNAL_ERROR", exDbInactive) := by
  have h1 := create_conflict_behaviour 1 constDraw urlPatternOk 0 "https://example.com" "abc"
    (some 30) none none exDb (by decide) (by decide) (by decide) (by decide) (by decide)
    (by decide)
  have h2 := create_conflict_behaviour 1 constDraw urlPatternOk 0 "https://example.com" "abc"
    (some 30) none none exDbInactive (by decide) (by decide) (by decide) (by decide) (by decide)
    (by decide)
  exact ⟨h1.1 ⟨exUrl, by decide⟩, h2.2 (by decide) ⟨exUrlInactive, by decide⟩ (by decide)⟩

theorem generateRandomShortcode_shape (draw : Fin 7 → Fin 62) :
    (generateRandomShortcode draw).toList.length = 7 ∧
    alnumOnly (generateRandomShortcode draw) = true := by
  have hall : ∀ c ∈ chars62, isAlnumChar c = true := by decide
  constructor
  · simp [generateRandomShortcode]
  · simp only [alnumOnly, generateRandomShortcode, Bool.and_eq_true, decide_eq_true_eq,
      List.all_eq_true]
    constructor
    · simp
    · intro c hc
      obtain ⟨i, _, rfl⟩ := List.mem_map.mp hc
      exact hall _ (List.get_mem _ _ _)

theorem genUniqueShortcode_shape (gen : Nat → Fin 7 → Fin 62) (urls : List Url) :
    ∀ fuel k sc, genUniqueShortcode gen urls fuel k = some sc →
      sc.toList.length = 7 ∧ alnumOnly sc = true := by
  intro fuel
  induction fuel with
  | zero => intro k sc h; simp [genUniqueShortcode] at h
  | succ n ih =>
      intro k sc h
      unfold genUniqueShortcode at h
      split at h
      · exact ih _ _ h
      · cases h
        exact generateRandomShortcode_shape _

theorem find?_append_left_none {α : Type} (p : α → Bool) (l₁ l₂ : List α)
    (h : l₁.find? p = none) : (l₁ ++ l₂).find? p = l₂.find? p := by
  induction l₁ with
  | nil => rfl
  | cons a as ih =>
      rw [List.cons_append]
      cases hpa : p a with
      | true => rw [List.find?_cons_of_pos _ hpa] at h; cases h
      | false =>
          rw [List.find?_cons_of_neg _ (by simp [hpa])] at h ⊢
          exact ih h

theorem validateValidity_ok_pos (v : Option ℚ) (vm : ℚ)
    (h : validateValidity v = Except.ok vm) : 0 < vm ∧ vm ≤ 525600 := by
  unfold validateValidity at h
  split at h
  · cases h
  · cases h
    rename_i hcond
    push_neg at hcond
    exact ⟨hcond.1, hcond.2⟩

theorem saveNewUrl_ok (fuel : Nat) (gen : Nat → Fin 7 → Fin 62) (now expiresAt : ℚ)
    (d : NewUrlData) (db : DB) (url : Url) (db1 : DB)
    (h : saveNewUrl fuel gen now expiresAt d db = Except.ok (url, db1)) :
    3 ≤ url.shortcode.toList.length ∧ url.shortcode.toList.length ≤ 20 ∧
    (jsTruthyStr d.shortcode = true → some url.shortcode = d.shortcode) ∧
    (jsTruthyStr d.shortcode = false →
      url.shortcode.toList.length = 7 ∧ alnumOnly url.shortcode = true) ∧
    url.originalUrl = d.originalUrl ∧ url.isActive = true ∧ url.expiresAt = expiresAt ∧
    db1.urls = db.urls ++ [url] ∧
    (∀ u ∈ db.urls, u.shortcode ≠ url.shortcode) := by
  unfold saveNewUrl at h
  split at h
  · cases h
  · rename_i sc hsc
    split at h
    · cases h
    · split at h
      · cases h
      · split at h
        · cases h
        · rename_i hlen hurl hany
          cases h
          simp only [Bool.or_eq_true, not_or, decide_eq_true_eq, Bool.not_eq_true] at hlen
          refine ⟨by simp only [newUrlDoc]; omega, by simp only [newUrlDoc]; omega, ?_, ?_,
            rfl, rfl, rfl, rfl, ?_⟩
          · intro ht
            rw [if_pos ht] at hsc
            simpa [newUrlDoc] using hsc.symm
          · intro hf
            rw [if_neg (by simp [hf])] at hsc
            simpa [newUrlDoc] using genUniqueShortcode_shape gen db.urls fuel 0 sc hsc
          · intro u hu
            have h2 : ∀ x ∈ db.urls, ¬x.shortcode = sc := by simpa using hany
            simpa only [newUrlDoc] using h2 u hu

/-- C7: whenever `POST /shorturls` answers 201, the returned shortcode matches
`^[A-Za-z0-9]{3,20}$` (auto-generated codes are exactly 7 alphanumerics), and
an immediately subsequent `getActive` on the updated store returns a link
whose target URL is exactly the input URL. -/
theorem create_roundtrip (fuel : Nat) (gen : Nat → Fin 7 → Fin 62) (ivu : String → Bool)
    (now : ℚ) (req : CreateReq) (db : DB) (sl : String) (e : ℚ) (sc : String) (db1 : DB)
    (h : postShorturls fuel gen ivu now req db = (HttpRes.created sl e sc, db1)) :
    matchesShortcodePattern sc = true ∧
    (jsTruthyStr req.shortcode = false → sc.toList.length = 7) ∧
    ∃ u : Url, (getUrlByShortcode now sc db1).fst = some u ∧
      u.originalUrl = req.url.getD "" ∧ u.shortcode = sc := by
  unfold postShorturls at h
  split at h
  · simp at h
  split at h
  · simp at h
  split at h
  · simp at h
  split at h
  · simp at h
  split at h
  · simp at h
  rename_i vm hvv
  split at h
  · rename_i hmu hvu hc3 hc4 xv xc out db2 hcs
    simp only [Prod.mk.injEq, HttpRes.created.injEq] at h
    obtain ⟨⟨hsl, he, hsc⟩, hdb⟩ := h
    simp only [createShortUrl] at hcs
    split at hcs
    · cases hcs
    · rename_i url db3 hinner
      by_cases hpre : (jsTruthyStr req.shortcode &&
          db.urls.any fun u => u.shortcode == req.shortcode.getD "" && u.isActive) = true
      · rw [if_pos hpre] at hinner
        cases hinner
      · rw [if_neg hpre] at hinner
        cases hcs
        have hs := saveNewUrl_ok _ _ _ _ _ _ _ _ hinner
        obtain ⟨hb1, hb2, hcust, hgen, horig, hact, hexp, hurls, hfresh⟩ := hs
        dsimp only at hsl he hsc hcust hgen horig
        have hvm := validateValidity_ok_pos _ _ hvv
        subst hsc hdb
        have halnum : alnumOnly url.shortcode = true := by
          cases hjt : jsTruthyStr req.shortcode with
          | false => exact (hgen hjt).2
          | true =>
              have hreq := hcust hjt
              rw [hjt] at hc3
              simp only [Bool.true_and, Bool.not_eq_true, Bool.not_eq_false] at hc3
              rw [← hreq] at hc3
              simpa using hc3
        refine ⟨?_, ?_, ⟨url, ?_, horig, rfl⟩⟩
        · simp only [matchesShortcodePattern, Bool.and_eq_true, decide_eq_true_eq]
          refine ⟨⟨?_, hb1⟩, hb2⟩
          simp only [alnumOnly, Bool.and_eq_true] at halnum
          exact halnum.2
        · intro hjt
          exact (hgen hjt).1
        · unfold getUrlByShortcode
          rw [hurls, find?_append_left_none]
          · rw [List.find?_cons_of_pos _ (by simp [hact])]
            have hnotexp : isExpired now url = false := by
              simp only [isExpired, decide_eq_false_iff_not, not_lt]
              rw [hexp]
              have hpos : 0 < vm * 60 * 1000 :=
                mul_pos (mul_pos hvm.1 (by norm_num)) (by norm_num)
              linarith
            simp [hnotexp]
          · apply List.find?_eq_none.mpr
            intro u hu
            simp [hfresh u hu]
  · rename_i msg hcs
    split at h <;> simp at h

theorem create_roundtrip_witness :
    matchesShortcodePattern "abc" = true ∧
    ((getUrlByShortcode 0 "abc" (postShorturls 1 constDraw urlPatternOk 0
        { url := some "https://example.com", validity := some 1, shortcode := some "abc",
          tags := none, description := none } emptyDb).snd).fst.map
      (fun u => u.originalUrl)) = some "https://example.com" := by
  have h := create_roundtrip 1 constDraw urlPatternOk 0
    { url := some "https://example.com", validity := some 1, shortcode := some "abc",
      tags := none, description := none } emptyDb
    "http://localhost:8080/abc" (0 + 1 * 60 * 1000) "abc"
    (postShorturls 1 constDraw urlPatternOk 0
      { url := some "https://example.com", validity := some 1, shortcode := some "abc",
        tags := none, description := none } emptyDb).snd (by rfl)
  obtain ⟨hpat, h7, u, hu, horig, hsc⟩ := h
  refine ⟨hpat, ?_⟩
  rw [hu]
  simp [horig]

/-- C1 (refuting the no-lost-update claim): interleaving one request's store
operations as coded (`[0,0,0]`) is faithful to `recordClick`; yet for two
concurrent requests on the same active, unexpired shortcode the interleaving
that runs both `findOne`s before either `save` (schedule `[0,1,0,0,1,1]`)
delivers both redirects and both click documents while the counter ends at
initial + 1, not initial + 2 — the increment is an application-layer
read-modify-write of the snapshot, not an atomic storage-layer add. -/
theorem recordClick_lost_update :
    (∀ (g : String → Option GeoInfo) (now : ℚ) (sc : String) (rd : RequestData) (db : DB),
      (runSched g now sc rd [0, 0, 0] [rcInit] db).snd = (recordClick g now sc rd db).snd ∧
      ((runSched g now sc rd [0, 0, 0] [rcInit] db).fst.getD 0 rcInit).result =
        some (recordClick g now sc rd db).fst) ∧
    ((runSched (fun _ => none) 0 "abc" { ip := none, userAgent := none, referer := none }
        [0, 1, 0, 0, 1, 1] [rcInit, rcInit] exDb).snd.urls.map (fun u => u.totalClicks) = [1] ∧
     (runSched (fun _ => none) 0 "abc" { ip := none, userAgent := none, referer := none }
        [0, 1, 0, 0, 1, 1] [rcInit, rcInit] exDb).snd.clicks.length = 2 ∧
     (runSched (fun _ => none) 0 "abc" { ip := none, userAgent := none, referer := none }
        [0, 1, 0, 0, 1, 1] [rcInit, rcInit] exDb).fst.map (fun t => t.result) =
       [some (some "https://example.com"), some (some "https://example.com")]) := by
  constructor
  · intro g now sc rd db
    rcases h0 : getUrlByShortcode now sc db with ⟨u, db1⟩
    cases u with
    | none =>
        constructor <;>
          simp [runSched, rcStep, recordClick, h0, rcInit, List.getD, List.set]
    | some url =>
        constructor <;>
          simp [runSched, rcStep, recordClick, h0, rcInit, List.getD, List.set]
  · refine ⟨?_, ?_, ?_⟩ <;> decide

theorem mem_insertDescBy {α : Type} (key : α → ℚ) (c x : α) (l : List α) :
    x ∈ insertDescBy key c l ↔ x = c ∨ x ∈ l := by
  induction l with
  | nil => simp [insertDescBy]
  | cons d ds ih =>
      by_cases h : key d ≤ key c
      · simp [insertDescBy, h]
      · simp only [insertDescBy, if_neg h, List.mem_cons, ih]
        tauto

theorem pairwise_insertDescBy {α : Type} (key : α → ℚ) (c : α) (l : List α)
    (h : l.Pairwise (fun a b => key b ≤ key a)) :
    (insertDescBy key c l).Pairwise (fun a b => key b ≤ key a) := by
  induction l with
  | nil => simp [insertDescBy]
  | cons d ds ih =>
      rcases List.pairwise_cons.mp h with ⟨hd, hds⟩
      by_cases hc : key d ≤ key c
      · rw [insertDescBy, if_pos hc]
        refine List.pairwise_cons.mpr ⟨?_, h⟩
        intro x hx
        rcases List.mem_cons.mp hx with rfl | hx
        · exact hc
        · exact le_trans (hd x hx) hc
      · rw [insertDescBy, if_neg hc]
        refine List.pairwise_cons.mpr ⟨?_, ih hds⟩
        intro x hx
        rcases (mem_insertDescBy key c x ds).mp hx with rfl | hx
        · exact le_of_not_le hc
        · exact hd x hx

theorem pairwise_sortDescBy {α : Type} (key : α → ℚ) (l : List α) :
    (sortDescBy key l).Pairwise (fun a b => key b ≤ key a) := by
  induction l with
  | nil => simp [sortDescBy]
  | cons c cs ih => exact pairwise_insertDescBy key c _ ih

theorem insertDescBy_map_ts (g : Click → Click) (hk : ∀ c, (g c).timestamp = c.timestamp)
    (c : Click) (l : List Click) :
    insertDescBy (fun c => c.timestamp) (g c) (l.map g) =
      (insertDescBy (fun c => c.timestamp) c l).map g := by
  induction l with
  | nil => simp [insertDescBy]
  | cons d ds ih =>
      simp only [List.map_cons, insertDescBy, hk]
      by_cases h : d.timestamp ≤ c.timestamp
      · rw [if_pos h, if_pos h]
        simp [hk]
      · rw [if_neg h, if_neg h]
        simp [ih]

theorem sortDescBy_map_ts (g : Click → Click) (hk : ∀ c, (g c).timestamp = c.timestamp)
    (l : List Click) :
    sortDescBy (fun c => c.timestamp) (l.map g) =
      (sortDescBy (fun c => c.timestamp) l).map g := by
  induction l with
  | nil => rfl
  | cons c cs ih =>
      simp only [sortDescBy, List.map_cons, List.foldr_cons] at ih ⊢
      rw [ih, insertDescBy_map_ts g hk]

/-- C9: `recentClicks` returns at most the requested limit of records (the
stats route requests the default 100), sorted by timestamp descending, and its
output is oblivious to the stored client IPs — rewriting every IP in the store
leaves the result unchanged, since the IP field is projected away. -/
theorem recentClicks_spec :
    (∀ sc limit clicks, (getClicksByShortcode sc limit clicks).length ≤ limit) ∧
    (∀ sc limit clicks, (getClicksByShortcode sc limit clicks).Pairwise
      (fun a b => b.timestamp ≤ a.timestamp)) ∧
    (∀ sc limit clicks (f : Click → Option String),
      getClicksByShortcode sc limit (clicks.map (fun c => { c with ip := f c })) =
        getClicksByShortcode sc limit clicks) ∧
    (∀ now sc db, (getUrlStats now sc db).map (fun stats => stats.recentClicks) =
      (getUrlStats now sc db).map (fun _ => getClicksByShortcode sc 100 db.clicks)) := by
  refine ⟨?_, ?_, ?_, ?_⟩
  · intro sc limit clicks
    simp only [getClicksByShortcode, List.length_map, List.length_take]
    exact min_le_left _ _
  · intro sc limit clicks
    rw [getClicksByShortcode, List.pairwise_map]
    exact List.Pairwise.sublist (List.take_sublist _ _) (pairwise_sortDescBy _ _)
  · intro sc limit clicks f
    unfold getClicksByShortcode
    have hfe : ((fun c : Click => c.shortcode == sc) ∘ (fun c : Click => { c with ip := f c })) =
        (fun c : Click => c.shortcode == sc) := rfl
    have hte : (toView ∘ (fun c : Click => { c with ip := f c })) = toView := rfl
    rw [List.filter_map, hfe, sortDescBy_map_ts (fun c : Click => { c with ip := f c })
      (fun c => rfl), ← List.map_take,
      List.map_map, hte]
  · intro now sc db
    unfold getUrlStats
    cases db.urls.find? (fun u => u.shortcode == sc) <;> rfl

/-- C10: `getUrlStats` answers for *any* stored shortcode — its lookup carries
no active or expiry filter, so it returns some statistics exactly when a
document with that shortcode exists; in particular, for a stored link that is
inactive or expired the statistics remain retrievable while the redirect path
(`recordClick`) treats the same shortcode as not-found. -/
theorem getUrlStats_ignores_flags :
    (∀ now sc db, (getUrlStats now sc db).isSome = true ↔ ∃ u ∈ db.urls, u.shortcode = sc) ∧
    (∀ (g : String → Option GeoInfo) (rd : RequestData) (now : ℚ) (sc : String)
        (db : DB) (u : Url),
      db.urls.find? (fun v => v.shortcode == sc) = some u →
      (u.isActive = false ∨ now > u.expiresAt) →
      (db.urls.map (fun v => v.id)).Nodup →
      (db.urls.map (fun v => v.shortcode)).Nodup →
      (getUrlStats now sc db).isSome = true ∧ (recordClick g now sc rd db).fst = none) := by
  constructor
  · intro now sc db
    simp [getUrlStats, List.find?_isSome]
  · intro g rd now sc db u hf hflag hid hsc
    constructor
    · rw [getUrlStats, hf]
      rfl
    · have hmem := List.mem_of_find?_eq_some hf
      have hpred := List.find?_some hf
      have husc : u.shortcode = sc := by simpa using hpred
      have hno : ∀ v ∈ db.urls, v.shortcode = sc → v.isActive = true → now > v.expiresAt := by
        intro v hv hvsc hvact
        have hveq : v = u :=
          List.inj_on_of_nodup_map hsc hv hmem (by rw [hvsc, husc])
        rcases hflag with hinact | hexp
        · rw [hveq] at hvact
          rw [hvact] at hinact
          cases hinact
        · rw [hveq]
          exact hexp
      exact (recordClick_not_found_aux g now sc rd db hid hsc hno).1

theorem getUrlStats_ignores_flags_witness :
    (getUrlStats 100 "abc" exDbExpired).isSome = true ∧
    (recordClick (fun _ => none) 100 "abc" { ip := none, userAgent := none, referer := none }
      exDbExpired).fst = none := by
  have h := getUrlStats_ignores_flags
  exact h.2 (fun _ => none) { ip := none, userAgent := none, referer := none } 100 "abc"
    exDbExpired exUrlExpired (by decide) (by decide) (by decide) (by decide)

end UrlShortener
